import Mathlib

/-!
Shallow embedding of the GCS cache backend (`src/cache/gcs.rs`):
the credential lifecycle manager (`GCSCredentialProvider::credentials`,
`auth_request_jwt`), the object-access layer (`Bucket::get`, `Bucket::put`)
and the cache adapter (`GCSCache::get`, `GCSCache::put`), together with the
percent-encoding of object keys used to build the GET and PUT URLs.

Timestamps are modelled as `Int` seconds (the code compares
`chrono::DateTime` values and adds `chrono::Duration::minutes(59)`).
Byte strings (HTTP bodies, object keys, URLs) are `List Nat` with each
element a byte value.
-/

/-- `GCSCredential` from the source: an access token plus the absolute
expiration instant (`expiration_time: chrono::DateTime<chrono::UTC>`). -/
structure GCSCredential where
  token : String
  expiration_time : Int
deriving DecidableEq, Repr

/-- The error values that flow through `errors::*` in the source:
`ErrorKind::BadHTTPStatus`, hyper transport errors, config / file / parse
errors, `chain_err` wrapping, and the `e.to_string().into()` conversion
applied to shared-future errors in `credentials()`. -/
inductive GcsError where
  | badHTTPStatus (status : Nat)
  | hyper (msg : String)
  | config (msg : String)
  | parse (msg : String)
  | chained (context : String) (inner : GcsError)
  | stringified (msg : String)
deriving DecidableEq, Repr

/-- Rendering of an error as a string, used by the
`Err(e) => Err(e.to_string().into())` arm of `credentials()`.
`chain_err` errors display their outermost context. -/
def errToString : GcsError → String
  | .badHTTPStatus s => "failed with HTTP status: " ++ toString s
  | .hyper m => m
  | .config m => m
  | .parse m => m
  | .chained c _ => c
  | .stringified m => m

/-- The observable state of one `Shared<SFuture<GCSCredential>>`:
not yet resolved (`Async::NotReady` on poll), resolved with a credential
(`Async::Ready`), or resolved with an error (`poll()` returns `Err`). -/
inductive SharedFutState where
  | notReady
  | resolvedOk (c : GCSCredential)
  | resolvedErr (e : GcsError)
deriving DecidableEq, Repr

/-- A shared future with an identity: two callers that hold the same `id`
are attached to the same underlying token-exchange operation. -/
structure SharedFut where
  id : Nat
  state : SharedFutState
deriving DecidableEq, Repr

/-- `cached_credentials: RefCell<Option<Shared<SFuture<GCSCredential>>>>`. -/
abbrev CredCacheState := Option SharedFut

/-- The `needs_refresh` computation of `GCSCredentialProvider::credentials`:
`None => true`; `Some(Ok(Async::Ready(creds))) => creds.expiration_time <
now`; every other poll outcome (`NotReady`, and also an `Err` from a shared
future that resolved with an error) falls to the `_ => false` arm. -/
def needsRefresh (now : Int) (st : CredCacheState) : Bool :=
  match st with
  | none => true
  | some f =>
    match f.state with
    | .resolvedOk creds => decide (creds.expiration_time < now)
    | _ => false

/-- What the `.then(...)` at the end of `credentials()` yields once the
joined shared future has a result: `Ok(e) => Ok((*e).clone())`,
`Err(e) => Err(e.to_string().into())`; `none` while still pending. -/
def futureOutcome : SharedFutState → Option (Except GcsError GCSCredential)
  | .notReady => none
  | .resolvedOk c => some (.ok c)
  | .resolvedErr e => some (.error (.stringified (errToString e)))

/-- The result a joined caller receives when the shared future resolves
with `r`: the credential is cloned, an error goes through `to_string`. -/
def toCallerResult : Except GcsError GCSCredential → Except GcsError GCSCredential
  | .ok c => .ok c
  | .error e => .error (.stringified (errToString e))

instance {ε α : Type} [DecidableEq ε] [DecidableEq α] : DecidableEq (Except ε α) :=
  fun x y =>
    match x, y with
    | .ok a, .ok b =>
      if h : a = b then .isTrue (by rw [h]) else .isFalse (by simp [h])
    | .error a, .error b =>
      if h : a = b then .isTrue (by rw [h]) else .isFalse (by simp [h])
    | .ok _, .error _ => .isFalse (by simp)
    | .error _, .ok _ => .isFalse (by simp)

/-- One call to `GCSCredentialProvider::credentials` observed from outside:
the cache state it leaves behind, whether it started a new token exchange
(built a fresh `credentials` future and stored `credentials.shared()`),
which shared future the caller is attached to (`joined = none` would be the
unreachable `unwrap()` panic), and the value the returned future yields
immediately if the joined future is already resolved. -/
structure CredentialsCall where
  newState : CredCacheState
  startedExchange : Bool
  joined : Option Nat
  outcome : Option (Except GcsError GCSCredential)
deriving DecidableEq, Repr

/-- `GCSCredentialProvider::credentials` as a state transition at instant
`now`. If `needs_refresh`, a new exchange future (identity `freshId`) is
built and stored (`*future_opt = Some(credentials.shared())`), still
unresolved; otherwise the existing future is kept and joined. -/
def credentialsStep (now : Int) (freshId : Nat) (st : CredCacheState) : CredentialsCall :=
  if needsRefresh now st then
    { newState := some ⟨freshId, .notReady⟩
      startedExchange := true
      joined := some freshId
      outcome := none }
  else
    match st with
    | some f =>
      { newState := some f
        startedExchange := false
        joined := some f.id
        outcome := futureOutcome f.state }
    | none =>
      { newState := none, startedExchange := false, joined := none, outcome := none }

/-- Resolution of the pending shared future with the token exchange's
result `r`: all handles to it observe `r` from then on. A future that is
already resolved, or an empty cache, is unchanged. -/
def resolveFut (r : Except GcsError GCSCredential) (st : CredCacheState) : CredCacheState :=
  match st with
  | some f =>
    match f.state with
    | .notReady =>
      some ⟨f.id, match r with
                  | .ok c => .resolvedOk c
                  | .error e => .resolvedErr e⟩
    | _ => some f
  | none => none

/-- The outcome a caller attached to future `joined` observes against the
final cache state: defined only when the cache still holds the future the
caller joined and that future has resolved. -/
def callerOutcome (st : CredCacheState) (joined : Option Nat) :
    Option (Except GcsError GCSCredential) :=
  match st, joined with
  | some f, some i => if i = f.id then futureOutcome f.state else none
  | _, _ => none

/-- A sequence of `credentials()` calls at instants `times`, with no
resolution event in between (every exchange started stays in flight).
`nextId` supplies fresh identities for newly started exchanges. Returns
the observed calls in order, the final cache state, and the next fresh id. -/
def runCalls (times : List Int) (nextId : Nat) (st : CredCacheState) :
    List CredentialsCall × CredCacheState × Nat :=
  match times with
  | [] => ([], st, nextId)
  | t :: rest =>
    let call := credentialsStep t nextId st
    let nextId' := if call.startedExchange then nextId + 1 else nextId
    let r := runCalls rest nextId' call.newState
    (call :: r.1, r.2)

/-- `ServiceAccountKey` from the source: the fields of the credentials
file JSON (only `client_email` and `private_key` are used further). -/
structure ServiceAccountKey where
  type_field : String
  project_id : String
  private_key_id : String
  private_key : String
  client_email : String
  client_id : String
  auth_uri : String
  token_uri : String
  auth_provider_x509_cert_url : String
deriving DecidableEq, Repr

/-- `JwtClaims` from the source: the claim set that is RS256-signed into
the auth request JWT (`iss`, `scope`, `aud`, `exp`, `iat`). -/
structure JwtClaims where
  issuer : String
  scope : String
  audience : String
  expiration : Int
  issued_at : Int
deriving DecidableEq, Repr

/-- `TokenMsg` from the source: the token endpoint's response body
`{access_token, token_type, expires_in}`. -/
structure TokenMsg where
  access_token : String
  token_type : String
  expires_in : Nat
deriving DecidableEq, Repr

/-- The scope string chosen in `auth_request_jwt`:
read-only or read-write devstorage, by the `read_only` flag. -/
def scopeUri (read_only : Bool) : String :=
  if read_only then
    "https://www.googleapis.com/auth/devstorage.readonly"
  else
    "https://www.googleapis.com/auth/devstorage.read_write"

/-- The claim set built by `GCSCredentialProvider::auth_request_jwt` once
the service-account key has been loaded: issuer is the service account's
`client_email`, scope by `read_only`, fixed audience, `exp` the
`expire_at` passed in by the caller, `iat` the current instant. -/
def authRequestJwtClaims (read_only : Bool) (sa_key : ServiceAccountKey)
    (expire_at : Int) (issued_at : Int) : JwtClaims :=
  { issuer := sa_key.client_email
    scope := scopeUri read_only
    audience := "https://www.googleapis.com/oauth2/v4/token"
    expiration := expire_at
    issued_at := issued_at }

/-- Outcome of one HTTP request: a response with status code and full
body, or a transport-level failure. -/
inductive HttpResult where
  | response (status : Nat) (body : List Nat)
  | transportError (msg : String)
deriving DecidableEq, Repr

/-- `res.status().is_success()`: a 2xx status code. -/
def isSuccessStatus (s : Nat) : Bool := 200 ≤ s && s < 300

/-- The expiry instant computed at the start of a refresh in
`credentials()`: `chrono::UTC::now() + chrono::Duration::minutes(59)`. -/
def credExpiresAt (now : Int) : Int := now + 59 * 60

/-- The result the refresh future built in `credentials()` resolves to:
`future::result(auth_jwt)` (so a JWT-construction error fails the future),
then the POST to the token endpoint (a transport error fails it), then the
2xx check (`BadHTTPStatus` otherwise), then body parsing into `TokenMsg`
(via `String::from_utf8` and `serde_json`, modelled by `parseTokenMsg`),
and finally `GCSCredential { token: access_token, expiration_time:
expires_at }` — the response's `expires_in` is never read. -/
def refreshFutureResult (expires_at : Int) (authJwt : Except GcsError String)
    (http : HttpResult) (parseTokenMsg : List Nat → Except GcsError TokenMsg) :
    Except GcsError GCSCredential :=
  match authJwt with
  | .error e => .error e
  | .ok _jwt =>
    match http with
    | .transportError m => .error (.hyper m)
    | .response status body =>
      if isSuccessStatus status then
        match parseTokenMsg body with
        | .error e => .error e
        | .ok msg => .ok { token := msg.access_token, expiration_time := expires_at }
      else
        .error (.badHTTPStatus status)

/-- `Bucket::get` seen from its caller: the credentials future's result
(an error there short-circuits the `and_then`), then the GET request
(transport errors are wrapped with the `failed GET: <url>` context), the
2xx check, and the buffered body on success. -/
def bucketGet (creds : Except GcsError GCSCredential) (http : HttpResult)
    (url : String) : Except GcsError (List Nat) :=
  match creds with
  | .error e => .error e
  | .ok _ =>
    match http with
    | .transportError m => .error (.chained ("failed GET: " ++ url) (.hyper m))
    | .response status body =>
      if isSuccessStatus status then .ok body
      else .error (.badHTTPStatus status)

/-- `Bucket::put` seen from its caller: credentials first (an error
short-circuits), then the POST; a transport error or a non-2xx status is
an error, a 2xx response resolves to `()`. -/
def bucketPut (creds : Except GcsError GCSCredential) (http : HttpResult) :
    Except GcsError Unit :=
  match creds with
  | .error e => .error e
  | .ok _ =>
    match http with
    | .transportError m => .error (.hyper m)
    | .response status _body =>
      if isSuccessStatus status then .ok ()
      else .error (.badHTTPStatus status)

/-- Upper-case hex digit of a nibble, as its ASCII byte
(percent escapes are written `%XY` with upper-case hex). -/
def toHexDigit (n : Nat) : Nat :=
  if n < 10 then 48 + n else 55 + n

/-- ASCII byte back to a nibble; `none` for a non-hex byte. -/
def fromHexDigit (c : Nat) : Option Nat :=
  if 48 ≤ c && c ≤ 57 then some (c - 48)
  else if 65 ≤ c && c ≤ 70 then some (c - 55)
  else if 97 ≤ c && c ≤ 102 then some (c - 87)
  else none

/-- The three bytes `%XY` that a byte in the encode set is replaced by. -/
def percentEncodeByte (b : Nat) : List Nat :=
  [37, toHexDigit (b / 16), toHexDigit (b % 16)]

/-- `SIMPLE_ENCODE_SET` of the `url` crate: control bytes and everything
above `0x7E`. -/
def inSimpleSet (b : Nat) : Bool := b < 32 || b > 126

/-- `QUERY_ENCODE_SET`: simple set plus space, double quote, hash,
less-than, greater-than. -/
def inQuerySet (b : Nat) : Bool :=
  inSimpleSet b || b == 32 || b == 34 || b == 35 || b == 60 || b == 62

/-- `DEFAULT_ENCODE_SET`: query set plus backquote (96), question mark
(63), and the two curly-bracket bytes (123, 125). -/
def inDefaultSet (b : Nat) : Bool :=
  inQuerySet b || b == 96 || b == 63 || b == 123 || b == 125

/-- `PATH_SEGMENT_ENCODE_SET`: default set plus percent (37) and
slash (47). -/
def inPathSegmentSet (b : Nat) : Bool :=
  inDefaultSet b || b == 37 || b == 47

/-- `percent_encode`: bytes in the encode set become `%XY`, the rest pass
through unchanged. -/
def percentEncodeBytes (inSet : Nat → Bool) : List Nat → List Nat
  | [] => []
  | b :: rest =>
    (if inSet b then percentEncodeByte b else [b]) ++ percentEncodeBytes inSet rest

/-- Server-side percent decoding: `%XY` with two hex digits becomes the
byte `16*X+Y`; a `%` not followed by two hex digits, and every other byte,
pass through. -/
def percentDecodeBytes : List Nat → List Nat
  | [] => []
  | [b] => [b]
  | [b, c] => [b, c]
  | b :: h :: l :: rest =>
    if b = 37 then
      match fromHexDigit h, fromHexDigit l with
      | some hv, some lv => (hv * 16 + lv) :: percentDecodeBytes rest
      | _, _ => 37 :: percentDecodeBytes (h :: l :: rest)
    else b :: percentDecodeBytes (h :: l :: rest)

/-- Split a byte string at every occurrence of `sep` (the `&`-splitting of
a query string). -/
def splitOnByte (sep : Nat) : List Nat → List (List Nat)
  | [] => [[]]
  | b :: rest =>
    let r := splitOnByte sep rest
    if b == sep then [] :: r
    else
      match r with
      | [] => [[b]]
      | x :: xs => (b :: x) :: xs

/-- Split one `key=value` piece at its first `sep` byte; a piece without
`sep` is all key, empty value. -/
def splitPairAt (sep : Nat) : List Nat → List Nat × List Nat
  | [] => ([], [])
  | b :: rest =>
    if b == sep then ([], rest)
    else
      let r := splitPairAt sep rest
      (b :: r.1, r.2)

/-- Decoding of one form-urlencoded component as the server reads it:
`+` means space, then percent escapes are decoded. -/
def formDecodeComponent (l : List Nat) : List Nat :=
  percentDecodeBytes (l.map fun b => if b == 43 then 32 else b)

/-- The value of parameter `name` in a query string as the server parses
it: split on `&`, split each piece at its first `=`, decode, first match. -/
def queryLookup (name : List Nat) (q : List Nat) : Option (List Nat) :=
  (splitOnByte 38 q).findSome? fun piece =>
    let kv := splitPairAt 61 piece
    if formDecodeComponent kv.1 = name then some (formDecodeComponent kv.2)
    else none

/-- ASCII bytes of `name` (the query parameter carrying the object name
in `Bucket::put`'s upload URL). -/
def nameKeyBytes : List Nat := [110, 97, 109, 101]

/-- ASCII bytes of `uploadType=media`, the second query parameter of the
upload URL. -/
def uploadTypeBytes : List Nat :=
  [117, 112, 108, 111, 97, 100, 84, 121, 112, 101, 61, 109, 101, 100, 105, 97]

/-- The query string of the upload URL built by `Bucket::put`:
`name=<key percent-encoded with QUERY_ENCODE_SET>&uploadType=media`. -/
def putQueryString (key : List Nat) : List Nat :=
  nameKeyBytes ++ 61 :: percentEncodeBytes inQuerySet key ++ 38 :: uploadTypeBytes

/-- The path segment holding the object key in the download URL built by
`Bucket::get`: the key percent-encoded with `PATH_SEGMENT_ENCODE_SET`. -/
def getPathSegment (key : List Nat) : List Nat :=
  percentEncodeBytes inPathSegmentSet key

/-- The object name the server derives from a GET: the percent-decoded
path segment. -/
def getObjectName (key : List Nat) : List Nat :=
  percentDecodeBytes (getPathSegment key)

/-- The object name the server derives from a PUT: the decoded value of
the `name` query parameter. -/
def putObjectName (key : List Nat) : Option (List Nat) :=
  queryLookup nameKeyBytes (putQueryString key)

/-- `CacheRead`: a parsed cache entry (an external collaborator; the
adapter only wraps it into `Cache::Hit`). -/
structure CacheRead where
  data : List Nat
deriving DecidableEq, Repr

/-- `Cache` from the generic cache interface: `Hit(CacheRead)` or `Miss`. -/
inductive Cache where
  | Hit (entry : CacheRead)
  | Miss
deriving DecidableEq, Repr

/-- `GCSCache::get` (the `Storage` impl): on `Ok(data)` from
`Bucket::get`, parse it with `CacheRead::from` (`cacheReadFrom`, whose
error propagates through the `?`) and wrap as `Hit`; on any error from
`Bucket::get`, log a warning and return `Ok(Cache::Miss)`. -/
def gcsCacheGet (cacheReadFrom : List Nat → Except GcsError CacheRead)
    (getResult : Except GcsError (List Nat)) : Except GcsError Cache :=
  match getResult with
  | .ok data =>
    match cacheReadFrom data with
    | .ok hit => .ok (Cache.Hit hit)
    | .error e => .error e
  | .error _e => .ok Cache.Miss

/-- The observable effects of one `GCSCache::put` call. -/
structure PutCall where
  result : Except GcsError Int
  credentialsCalled : Bool
  httpIssued : Bool
deriving DecidableEq, Repr

/-- One `credentials()` call followed by awaiting its returned future:
if the joined shared future is already resolved the caller gets that value
at once; otherwise the pending exchange resolves to `pendingResolution`
and the caller receives it (through the `.then` conversion). Returns the
cache state once the await finished and the caller's credential result. -/
def awaitCredentials (now : Int) (freshId : Nat) (st : CredCacheState)
    (pendingResolution : Except GcsError GCSCredential) :
    CredCacheState × Except GcsError GCSCredential :=
  let call := credentialsStep now freshId st
  match call.outcome with
  | some r => (call.newState, r)
  | none => (resolveFut pendingResolution call.newState,
             toCallerResult pendingResolution)

/-- `GCSCache::put` (the `Storage` impl): `entry.finish()` first — on an
error the call returns `future::err(e.into())` at once, before
`bucket.put` (and hence before `credentials()` or any request) runs. On
`Ok(data)`, `bucket.put` resolves the credential future (a refresh started
here, if any, resolves to `pendingResolution`), issues the POST when the
credentials arrived, wraps any error with the `failed to put cache entry
in GCS` context, and maps success to `start.elapsed()` (`elapsed`).
Returns the call's effects and the credential cache state it leaves. -/
def gcsCachePut (finishResult : Except GcsError (List Nat)) (now : Int)
    (freshId : Nat) (st : CredCacheState)
    (pendingResolution : Except GcsError GCSCredential) (http : HttpResult)
    (elapsed : Int) : PutCall × CredCacheState :=
  match finishResult with
  | .error e =>
    ({ result := .error e, credentialsCalled := false, httpIssued := false }, st)
  | .ok _data =>
    let resolved := awaitCredentials now freshId st pendingResolution
    let creds := resolved.2
    (match bucketPut creds http with
     | .ok _ =>
       { result := .ok elapsed, credentialsCalled := true, httpIssued := true }
     | .error e =>
       { result := .error (.chained "failed to put cache entry in GCS" e)
         credentialsCalled := true
         httpIssued := creds.isOk }, resolved.1)

/-! ## Lemmas about the credential cache -/

/-- A `credentials()` call that finds a pending shared future joins it
and changes nothing. -/
lemma credentialsStep_pending (now : Int) (fid i : Nat) :
    credentialsStep now fid (some ⟨i, .notReady⟩) =
      { newState := some ⟨i, .notReady⟩, startedExchange := false,
        joined := some i, outcome := none } := rfl

/-- While the cached shared future stays pending, a whole sequence of
`credentials()` calls joins it, starts nothing, and leaves the cache
untouched. -/
lemma runCalls_pending (ts : List Int) (n i : Nat) :
    runCalls ts n (some ⟨i, .notReady⟩) =
      (ts.map fun _ =>
        ({ newState := some ⟨i, .notReady⟩, startedExchange := false,
           joined := some i, outcome := none } : CredentialsCall),
       some ⟨i, .notReady⟩, n) := by
  induction ts with
  | nil => rfl
  | cons t rest ih => simp [runCalls, credentialsStep_pending, ih]

/-- Resolving a pending future with `r` and reading it back through
`callerOutcome` yields exactly the caller-visible form of `r`. -/
lemma callerOutcome_resolve (r : Except GcsError GCSCredential) (i : Nat) :
    callerOutcome (resolveFut r (some ⟨i, .notReady⟩)) (some i) =
      some (toCallerResult r) := by
  cases r <;> simp [resolveFut, callerOutcome, futureOutcome, toCallerResult]

/-- Claim C1: for every sequence of `credentials()` calls made while the
cache is Empty or while the refresh started by the first call is still in
flight, exactly one token exchange is started; every caller joins that
same shared future, and once it resolves with `res` every caller observes
the identical result of `res`. -/
theorem credentials_single_flight (t : Int) (ts : List Int) (id0 : Nat) :
    ((runCalls (t :: ts) id0 none).1.filter (fun c => c.startedExchange)).length = 1 ∧
    (∀ c ∈ (runCalls (t :: ts) id0 none).1, c.joined = some id0) ∧
    (∀ res : Except GcsError GCSCredential, ∀ c ∈ (runCalls (t :: ts) id0 none).1,
      callerOutcome (resolveFut res (runCalls (t :: ts) id0 none).2.1) c.joined =
        some (toCallerResult res)) := by
  have h1 : runCalls (t :: ts) id0 none =
      (({ newState := some ⟨id0, .notReady⟩, startedExchange := true,
          joined := some id0, outcome := none } : CredentialsCall) ::
        ts.map (fun _ =>
          ({ newState := some ⟨id0, .notReady⟩, startedExchange := false,
             joined := some id0, outcome := none } : CredentialsCall)),
       some ⟨id0, .notReady⟩, id0 + 1) := by
    simp [runCalls, credentialsStep, needsRefresh, runCalls_pending]
  rw [h1]
  refine ⟨?_, ?_, ?_⟩
  · have hnil : (ts.map (fun _ =>
        ({ newState := some ⟨id0, .notReady⟩, startedExchange := false,
           joined := some id0, outcome := none } : CredentialsCall))).filter
          (fun c => c.startedExchange) = [] := by
      rw [List.filter_eq_nil_iff]
      intro a ha
      rcases List.mem_map.mp ha with ⟨x, _, rfl⟩
      simp
    simp [List.filter, hnil]
  · intro c hc
    rcases List.mem_cons.mp hc with h | h
    · subst h; rfl
    · rcases List.mem_map.mp h with ⟨x, _, rfl⟩; rfl
  · intro res c hc
    have hj : c.joined = some id0 := by
      rcases List.mem_cons.mp hc with h | h
      · subst h; rfl
      · rcases List.mem_map.mp h with ⟨x, _, rfl⟩; rfl
    rw [hj, callerOutcome_resolve]

/-- Claim C2 (exhibit of the code's actual behavior): when the refresh
future resolves with an error, the cache keeps the erroring shared future
instead of returning to Empty; a later `credentials()` call (here at a
much later instant) finds `poll()` returning `Err`, which the
`_ => false` arm of `needs_refresh` treats as no-refresh: no new exchange
is started and the caller receives the same old failure. -/
theorem failed_refresh_poisons_cache :
    resolveFut (.error (.badHTTPStatus 500)) (some ⟨0, .notReady⟩) =
      some ⟨0, .resolvedErr (.badHTTPStatus 500)⟩ ∧
    credentialsStep 1000 1 (some ⟨0, .resolvedErr (.badHTTPStatus 500)⟩) =
      { newState := some ⟨0, .resolvedErr (.badHTTPStatus 500)⟩
        startedExchange := false
        joined := some 0
        outcome := some (.error (.stringified "failed with HTTP status: 500")) } :=
  ⟨rfl, rfl⟩

/-- Claim C3 (counterexample): with a cached credential whose
`expiration_time` equals `now` (both 5), `needs_refresh` compares with
strict `<`, so the call returns the expired credential as valid and
starts no exchange — contradicting the claim that `expires_at <= now` is
never returned and triggers a refresh. -/
theorem expiry_at_now_returned_as_valid :
    credentialsStep 5 1 (some ⟨0, .resolvedOk ⟨"token", 5⟩⟩) =
      { newState := some ⟨0, .resolvedOk ⟨"token", 5⟩⟩
        startedExchange := false
        joined := some 0
        outcome := some (.ok ⟨"token", 5⟩) } := by
  rfl

/-- Claim C3 (amended): a cached credential whose `expiration_time` lies
strictly in the past is not returned: the call discards it, starts
exactly one new exchange and leaves the caller waiting on the fresh
pending future. -/
theorem credentials_refresh_on_strictly_past_expiry (now : Int) (fid i : Nat)
    (c : GCSCredential) (h : c.expiration_time < now) :
    credentialsStep now fid (some ⟨i, .resolvedOk c⟩) =
      { newState := some ⟨fid, .notReady⟩, startedExchange := true,
        joined := some fid, outcome := none } := by
  simp [credentialsStep, needsRefresh, h]

/-- Witness for the amended C3 at `now = 6`, cached expiry 5. -/
theorem credentials_refresh_on_strictly_past_expiry_witness :
    credentialsStep 6 1 (some ⟨0, .resolvedOk ⟨"token", 5⟩⟩) =
      { newState := some ⟨1, .notReady⟩, startedExchange := true,
        joined := some 1, outcome := none } :=
  credentials_refresh_on_strictly_past_expiry 6 1 0 ⟨"token", 5⟩ (by decide)

/-- Claim C9: while the cached credential is present and unexpired
(every access instant lies strictly before `expiration_time`), every call
of an access sequence returns that same credential immediately, starts no
exchange, and leaves the cached state untouched. -/
theorem valid_credential_returned_without_refresh (times : List Int) (n i : Nat)
    (c : GCSCredential) (h : ∀ t ∈ times, t < c.expiration_time) :
    runCalls times n (some ⟨i, .resolvedOk c⟩) =
      (times.map fun _ =>
        ({ newState := some ⟨i, .resolvedOk c⟩, startedExchange := false,
           joined := some i, outcome := some (.ok c) } : CredentialsCall),
       some ⟨i, .resolvedOk c⟩, n) := by
  induction times with
  | nil => rfl
  | cons t rest ih =>
    have ht : ¬ (c.expiration_time < t) := not_lt.mpr (le_of_lt (h t (by simp)))
    have hstep : credentialsStep t n (some ⟨i, .resolvedOk c⟩) =
        { newState := some ⟨i, .resolvedOk c⟩, startedExchange := false,
          joined := some i, outcome := some (.ok c) } := by
      simp [credentialsStep, needsRefresh, ht, futureOutcome]
    simp [runCalls, hstep, ih (fun x hx => h x (by simp [hx]))]

/-- Witness for C9: two accesses at instants 10 and 20 against a
credential expiring at 100. -/
theorem valid_credential_returned_without_refresh_witness :
    runCalls [10, 20] 1 (some ⟨0, .resolvedOk ⟨"tok", 100⟩⟩) =
      ([{ newState := some ⟨0, .resolvedOk ⟨"tok", 100⟩⟩, startedExchange := false,
          joined := some 0, outcome := some (.ok ⟨"tok", 100⟩) },
        { newState := some ⟨0, .resolvedOk ⟨"tok", 100⟩⟩, startedExchange := false,
          joined := some 0, outcome := some (.ok ⟨"tok", 100⟩) }],
       some ⟨0, .resolvedOk ⟨"tok", 100⟩⟩, 1) :=
  valid_credential_returned_without_refresh [10, 20] 1 0 ⟨"tok", 100⟩ (by decide)

/-- Claim C6: every credential produced by a successful token exchange
carries `expiration_time = now + 59 minutes` — the locally computed
instant that was also asserted as the JWT `exp` claim — for every token
endpoint response, i.e. regardless of the `expires_in` the parser
extracted from the body. -/
theorem exchange_expiry_is_local_59_minutes (now : Int)
    (authJwt : Except GcsError String) (http : HttpResult)
    (parseTokenMsg : List Nat → Except GcsError TokenMsg) (c : GCSCredential)
    (ro : Bool) (sa : ServiceAccountKey) (iat : Int)
    (h : refreshFutureResult (credExpiresAt now) authJwt http parseTokenMsg = .ok c) :
    c.expiration_time = now + 59 * 60 ∧
    (authRequestJwtClaims ro sa (credExpiresAt now) iat).expiration =
      c.expiration_time := by
  cases authJwt with
  | error e => simp [refreshFutureResult] at h
  | ok jwt =>
    cases http with
    | transportError m => simp [refreshFutureResult] at h
    | response status body =>
      by_cases hs : isSuccessStatus status = true
      · rcases hp : parseTokenMsg body with e | msg
        · simp [refreshFutureResult, hs, hp] at h
        · simp [refreshFutureResult, hs, hp] at h
          subst h
          exact ⟨rfl, rfl⟩
      · simp [refreshFutureResult, hs] at h

/-- Witness for C6: a successful exchange at `now = 0` whose response
declares `expires_in = 3600`, yet the credential expires at `59 * 60`. -/
theorem exchange_expiry_is_local_59_minutes_witness :
    (⟨"tok", 3540⟩ : GCSCredential).expiration_time = 0 + 59 * 60 ∧
    (authRequestJwtClaims true ⟨"", "", "", "", "e", "", "", "", ""⟩
      (credExpiresAt 0) 0).expiration =
      (⟨"tok", 3540⟩ : GCSCredential).expiration_time :=
  exchange_expiry_is_local_59_minutes 0 (.ok "jwt") (.response 200 [1])
    (fun _ => .ok ⟨"tok", "Bearer", 3600⟩) ⟨"tok", 3540⟩ true
    ⟨"", "", "", "", "e", "", "", "", ""⟩ 0 rfl

/-- Claim C8: the OAuth scope in the JWT claim set depends only on the
`read_only` flag (same scope for any key material and timestamps), and is
the readonly devstorage URI when the flag is true, the read-write URI when
it is false. -/
theorem jwt_scope_by_readonly_flag (ro : Bool) (sa₁ sa₂ : ServiceAccountKey)
    (e₁ i₁ e₂ i₂ : Int) :
    (authRequestJwtClaims ro sa₁ e₁ i₁).scope =
      (authRequestJwtClaims ro sa₂ e₂ i₂).scope ∧
    (authRequestJwtClaims true sa₁ e₁ i₁).scope =
      "https://www.googleapis.com/auth/devstorage.readonly" ∧
    (authRequestJwtClaims false sa₁ e₁ i₁).scope =
      "https://www.googleapis.com/auth/devstorage.read_write" :=
  ⟨rfl, rfl, rfl⟩

/-- Claim C4: every failure of the underlying `Bucket::get` — including a
credential failure, which short-circuits `Bucket::get` itself — is folded
into `Ok(Cache::Miss)` by `GCSCache::get`; a successful GET whose bytes
parse is wrapped as `Hit` with those bytes. -/
theorem get_folds_get_errors_to_miss
    (cacheReadFrom : List Nat → Except GcsError CacheRead)
    (creds : Except GcsError GCSCredential) (http : HttpResult) (url : String)
    (e : GcsError) (data : List Nat) (hit : CacheRead) :
    gcsCacheGet cacheReadFrom (.error e) = .ok Cache.Miss ∧
    bucketGet (.error e) http url = .error e ∧
    ((bucketGet creds http url).isOk = false →
      gcsCacheGet cacheReadFrom (bucketGet creds http url) = .ok Cache.Miss) ∧
    (cacheReadFrom data = .ok hit →
      gcsCacheGet cacheReadFrom (.ok data) = .ok (Cache.Hit hit)) := by
  refine ⟨rfl, rfl, ?_, ?_⟩
  · intro hb
    rcases hx : bucketGet creds http url with e' | d
    · simp [gcsCacheGet]
    · rw [hx] at hb
      simp [Except.isOk, Except.toBool] at hb
  · intro hf
    simp [gcsCacheGet, hf]

/-- Witness for C4, matching the spec scenario: the credentials file is
absent, `credentials()` fails with a config error, yet `get` returns
`Miss`; and a 404 GET also returns `Miss`. -/
theorem get_folds_get_errors_to_miss_witness :
    gcsCacheGet (fun d => .ok ⟨d⟩)
      (.error (.config "missing credentials file")) = .ok Cache.Miss ∧
    bucketGet (.error (.config "missing credentials file")) (.response 404 []) "u" =
      .error (.config "missing credentials file") ∧
    gcsCacheGet (fun d => .ok ⟨d⟩)
      (bucketGet (.ok ⟨"tok", 99⟩) (.response 404 []) "u") = .ok Cache.Miss ∧
    gcsCacheGet (fun d => .ok ⟨d⟩) (.ok [1, 2]) = .ok (Cache.Hit ⟨[1, 2]⟩) := by
  obtain ⟨h1, h2, h3, h4⟩ :=
    get_folds_get_errors_to_miss (fun d => .ok ⟨d⟩)
      (.ok ⟨"tok", 99⟩) (.response 404 []) "u"
      (.config "missing credentials file") [1, 2] ⟨[1, 2]⟩
  exact ⟨h1, h2, h3 (by decide), h4 rfl⟩

/-- The result of `GCSCache::put` once serialization succeeded: the
`bucket.put` outcome, success mapped to the elapsed duration and errors
wrapped with the `failed to put cache entry in GCS` context. -/
lemma gcsCachePut_ok_data (data : List Nat) (now : Int) (fid : Nat)
    (st : CredCacheState) (res : Except GcsError GCSCredential)
    (http : HttpResult) (elapsed : Int) :
    (gcsCachePut (.ok data) now fid st res http elapsed).1.result =
      match bucketPut (awaitCredentials now fid st res).2 http with
      | .ok _ => .ok elapsed
      | .error e' => .error (.chained "failed to put cache entry in GCS" e') := by
  cases hb : bucketPut (awaitCredentials now fid st res).2 http <;>
    simp [gcsCachePut, hb]

/-- Claim C5: `GCSCache::put` propagates transport, credential and
HTTP-status failures as errors — in particular it never resolves
successfully when the store answered non-2xx — and on success resolves to
the elapsed wall-clock duration. -/
theorem put_propagates_errors (data : List Nat) (now : Int) (fid : Nat)
    (st : CredCacheState) (res : Except GcsError GCSCredential)
    (status bad : Nat) (body : List Nat) (m : String) (elapsed : Int)
    (e : GcsError) (c : GCSCredential) :
    (isSuccessStatus bad = false →
      ((gcsCachePut (.ok data) now fid st res (.response bad body) elapsed).1.result).isOk
        = false) ∧
    (((gcsCachePut (.ok data) now fid st res (.transportError m) elapsed).1.result).isOk
        = false) ∧
    (bucketPut (.error e) (.response status body) = .error e ∧
      bucketPut (.error e) (.transportError m) = .error e) ∧
    (isSuccessStatus status = true →
      (gcsCachePut (.ok data) now fid none (.ok c) (.response status body) elapsed).1.result
        = .ok elapsed) := by
  refine ⟨?_, ?_, ⟨rfl, rfl⟩, ?_⟩
  · intro hs
    rw [gcsCachePut_ok_data]
    rcases (awaitCredentials now fid st res).2 with e' | c' <;>
      simp [bucketPut, hs, Except.isOk, Except.toBool]
  · rw [gcsCachePut_ok_data]
    rcases (awaitCredentials now fid st res).2 with e' | c' <;>
      simp [bucketPut, Except.isOk, Except.toBool]
  · intro hs
    simp [gcsCachePut, awaitCredentials, credentialsStep, needsRefresh,
      resolveFut, toCallerResult, bucketPut, hs]

/-- Witness for C5: a 500 response and a transport failure both surface
as errors; a credential failure propagates; a 200 upload resolves to the
elapsed duration. -/
theorem put_propagates_errors_witness :
    (((gcsCachePut (.ok [1]) 0 0 none (.ok ⟨"t", 9⟩) (.response 500 []) 7).1.result).isOk
        = false) ∧
    (((gcsCachePut (.ok [1]) 0 0 none (.ok ⟨"t", 9⟩) (.transportError "conn") 7).1.result).isOk
        = false) ∧
    (bucketPut (.error (.config "bad key")) (.response 200 []) = .error (.config "bad key") ∧
      bucketPut (.error (.config "bad key")) (.transportError "conn") =
        .error (.config "bad key")) ∧
    ((gcsCachePut (.ok [1]) 0 0 none (.ok ⟨"t", 9⟩) (.response 200 []) 7).1.result
        = .ok 7) := by
  obtain ⟨h1, h2, h3, h4⟩ :=
    put_propagates_errors [1] 0 0 none (.ok ⟨"t", 9⟩) 200 500 [] "conn" 7
      (.config "bad key") ⟨"t", 9⟩
  exact ⟨h1 (by decide), h2, h3, h4 (by decide)⟩

/-- Claim C10: when `entry.finish()` fails, `GCSCache::put` returns that
error at once — `credentials()` is never called, no request is issued,
and the credential cache state is exactly what it was. -/
theorem put_finish_error_short_circuits (e : GcsError) (now : Int) (fid : Nat)
    (st : CredCacheState) (res : Except GcsError GCSCredential)
    (http : HttpResult) (elapsed : Int) :
    gcsCachePut (.error e) now fid st res http elapsed =
      ({ result := .error e, credentialsCalled := false, httpIssued := false }, st) :=
  rfl

/-! ## Percent-encoding of object keys (GET path segment vs PUT query) -/

/-- Hex digits round-trip on nibbles. -/
lemma fromHex_toHex (n : Nat) (h : n < 16) : fromHexDigit (toHexDigit n) = some n := by
  interval_cases n <;> decide

/-- Decoding steps over a byte that cannot open a percent escape. -/
lemma percentDecodeBytes_cons_ne (b : Nat) (l : List Nat) (hb : b ≠ 37) :
    percentDecodeBytes (b :: l) = b :: percentDecodeBytes l := by
  rcases l with _ | ⟨h1, _ | ⟨h2, rest⟩⟩ <;> simp [percentDecodeBytes, hb]

/-- Percent-decoding inverts percent-encoding on byte strings, provided
every raw percent byte would have been encoded (`37` in the encode set or
absent from the key). -/
lemma percentDecode_encode (inSet : Nat → Bool) (key : List Nat)
    (h256 : ∀ b ∈ key, b < 256) (h37 : ∀ b ∈ key, b = 37 → inSet b = true) :
    percentDecodeBytes (percentEncodeBytes inSet key) = key := by
  induction key with
  | nil => simp [percentEncodeBytes, percentDecodeBytes]
  | cons b rest ih =>
    have hb256 : b < 256 := h256 b (by simp)
    have ih' := ih (fun x hx => h256 x (by simp [hx]))
      (fun x hx => h37 x (by simp [hx]))
    by_cases hset : inSet b = true
    · have hhi : fromHexDigit (toHexDigit (b / 16)) = some (b / 16) :=
        fromHex_toHex _ (by omega)
      have hlo : fromHexDigit (toHexDigit (b % 16)) = some (b % 16) :=
        fromHex_toHex _ (by omega)
      have hval : b / 16 * 16 + b % 16 = b := by omega
      simp [percentEncodeBytes, percentEncodeByte, hset, percentDecodeBytes,
        hhi, hlo, hval, ih']
    · have hb37 : b ≠ 37 := by
        intro hEq
        exact hset (h37 b (by simp) hEq)
      simp [percentEncodeBytes, hset, percentDecodeBytes_cons_ne b _ hb37, ih']

/-- Every byte of an encoded key is a percent, a hex digit of an escape,
or a raw byte of the key. -/
lemma mem_percentEncode (inSet : Nat → Bool) (key : List Nat) (x : Nat)
    (h256 : ∀ b ∈ key, b < 256) (hx : x ∈ percentEncodeBytes inSet key) :
    x = 37 ∨ (∃ n, n < 16 ∧ x = toHexDigit n) ∨ x ∈ key := by
  induction key with
  | nil => simp [percentEncodeBytes] at hx
  | cons b rest ih =>
    have hb256 : b < 256 := h256 b (by simp)
    simp only [percentEncodeBytes, List.mem_append] at hx
    rcases hx with hx | hx
    · by_cases hset : inSet b = true
      · rw [if_pos hset] at hx
        simp [percentEncodeByte] at hx
        rcases hx with hx | hx | hx
        · exact Or.inl hx
        · exact Or.inr (Or.inl ⟨b / 16, by omega, hx⟩)
        · exact Or.inr (Or.inl ⟨b % 16, by omega, hx⟩)
      · rw [if_neg hset] at hx
        simp at hx
        exact Or.inr (Or.inr (by simp [hx]))
    · rcases ih (fun y hy => h256 y (by simp [hy])) hx with h | h | h
      · exact Or.inl h
      · exact Or.inr (Or.inl h)
      · exact Or.inr (Or.inr (by simp [h]))

/-- Hex-digit bytes are neither an ampersand nor a plus. -/
lemma hexDigit_ne_38_43 (n : Nat) (h : n < 16) :
    toHexDigit n ≠ 38 ∧ toHexDigit n ≠ 43 := by
  interval_cases n <;> exact ⟨by decide, by decide⟩

/-- Encoding a key free of ampersands produces no ampersand byte. -/
lemma encode_no_38 (inSet : Nat → Bool) (key : List Nat)
    (h256 : ∀ b ∈ key, b < 256) (h38 : ∀ b ∈ key, b ≠ 38) :
    ∀ x ∈ percentEncodeBytes inSet key, x ≠ 38 := by
  intro x hx
  rcases mem_percentEncode inSet key x h256 hx with h | ⟨n, hn, rfl⟩ | h
  · omega
  · exact (hexDigit_ne_38_43 n hn).1
  · exact h38 x h

/-- Encoding a key free of plus signs produces no plus byte. -/
lemma encode_no_43 (inSet : Nat → Bool) (key : List Nat)
    (h256 : ∀ b ∈ key, b < 256) (h43 : ∀ b ∈ key, b ≠ 43) :
    ∀ x ∈ percentEncodeBytes inSet key, x ≠ 43 := by
  intro x hx
  rcases mem_percentEncode inSet key x h256 hx with h | ⟨n, hn, rfl⟩ | h
  · omega
  · exact (hexDigit_ne_38_43 n hn).2
  · exact h43 x h

/-- A separator-free byte string splits into itself alone. -/
lemma splitOnByte_no_sep (sep : Nat) (l : List Nat) (hl : ∀ x ∈ l, x ≠ sep) :
    splitOnByte sep l = [l] := by
  induction l with
  | nil => rfl
  | cons b bs ih =>
    have hb : (b == sep) = false := by
      simp [hl b (by simp)]
    simp [splitOnByte, hb, ih (fun x hx => hl x (by simp [hx]))]

/-- Splitting at the first separator after a separator-free block yields
that block as the first piece. -/
lemma splitOnByte_append (sep : Nat) (l r : List Nat) (hl : ∀ x ∈ l, x ≠ sep) :
    splitOnByte sep (l ++ sep :: r) = l :: splitOnByte sep r := by
  induction l with
  | nil => simp [splitOnByte]
  | cons b bs ih =>
    have hb : (b == sep) = false := by
      simp [hl b (by simp)]
    simp [splitOnByte, hb, ih (fun x hx => hl x (by simp [hx]))]

/-- A `key=value` piece whose key part is separator-free splits at the
first separator. -/
lemma splitPairAt_append (sep : Nat) (k v : List Nat) (hk : ∀ x ∈ k, x ≠ sep) :
    splitPairAt sep (k ++ sep :: v) = (k, v) := by
  induction k with
  | nil => simp [splitPairAt]
  | cons b bs ih =>
    have hb : (b == sep) = false := by
      simp [hk b (by simp)]
    simp [splitPairAt, hb, ih (fun x hx => hk x (by simp [hx]))]

/-- Form-decoding inverts query encoding on keys without percent or plus
bytes. -/
lemma formDecode_encode (key : List Nat) (h256 : ∀ b ∈ key, b < 256)
    (h37 : ∀ b ∈ key, b ≠ 37) (h43 : ∀ b ∈ key, b ≠ 43) :
    formDecodeComponent (percentEncodeBytes inQuerySet key) = key := by
  unfold formDecodeComponent
  have hpt : ∀ x ∈ percentEncodeBytes inQuerySet key,
      (fun b => if b == 43 then 32 else b) x = id x := by
    intro x hx
    have h43x := encode_no_43 inQuerySet key h256 h43 x hx
    simp [h43x]
  rw [List.map_congr_left hpt, List.map_id]
  exact percentDecode_encode inQuerySet key h256
    (fun b hb hEq => absurd hEq (h37 b hb))

/-- Claim C7 (counterexample): the key `a/b&c` — which contains the
reserved characters `/` and `&` — is addressed inconsistently: the GET
path segment decodes back to `a/b&c`, but the PUT query string
`name=a/b&c&uploadType=media` leaves `&` raw (it is not in
`QUERY_ENCODE_SET`), so the server reads the object name `a/b`. -/
theorem get_put_key_encoding_counterexample :
    getObjectName [97, 47, 98, 38, 99] = [97, 47, 98, 38, 99] ∧
    putObjectName [97, 47, 98, 38, 99] = some [97, 47, 98] ∧
    putObjectName [97, 47, 98, 38, 99] ≠ some (getObjectName [97, 47, 98, 38, 99]) := by
  refine ⟨by decide, by decide, by decide⟩

/-- Claim C7 (amended): for every byte key containing no ampersand, no
plus and no percent byte — which still admits the reserved characters the
claim lists, such as `/`, `?` and space — GET and PUT address the same
remote object: both server-side decodings give back exactly the key. -/
theorem get_put_address_same_object (key : List Nat)
    (h256 : ∀ b ∈ key, b < 256) (h38 : ∀ b ∈ key, b ≠ 38)
    (h43 : ∀ b ∈ key, b ≠ 43) (h37 : ∀ b ∈ key, b ≠ 37) :
    getObjectName key = key ∧ putObjectName key = some key := by
  constructor
  · exact percentDecode_encode inPathSegmentSet key h256
      (fun b _ hEq => by rw [hEq]; rfl)
  · have henc38 := encode_no_38 inQuerySet key h256 h38
    have hpiece : ∀ x ∈ nameKeyBytes ++ 61 :: percentEncodeBytes inQuerySet key,
        x ≠ 38 := by
      intro x hx
      rcases List.mem_append.mp hx with h | h
      · fin_cases h <;> decide
      · rcases List.mem_cons.mp h with rfl | h
        · decide
        · exact henc38 x h
    have hupload : ∀ x ∈ uploadTypeBytes, x ≠ 38 := by decide
    have hsplit : splitOnByte 38 (putQueryString key) =
        (nameKeyBytes ++ 61 :: percentEncodeBytes inQuerySet key) ::
          [uploadTypeBytes] := by
      unfold putQueryString
      rw [splitOnByte_append 38 _ _ hpiece, splitOnByte_no_sep 38 _ hupload]
    have hname61 : ∀ x ∈ nameKeyBytes, x ≠ 61 := by decide
    have hpair : splitPairAt 61
        (nameKeyBytes ++ 61 :: percentEncodeBytes inQuerySet key) =
        (nameKeyBytes, percentEncodeBytes inQuerySet key) :=
      splitPairAt_append 61 _ _ hname61
    unfold putObjectName queryLookup
    rw [hsplit]
    simp only [List.findSome?]
    rw [hpair]
    have hdecn : formDecodeComponent nameKeyBytes = nameKeyBytes := by decide
    simp only [hdecn, if_pos rfl]
    rw [formDecode_encode key h256 h37 h43]
    simp

/-- Witness for the amended C7: the key `a/b`, which contains the
reserved character `/`, is addressed identically by GET and PUT. -/
theorem get_put_address_same_object_witness :
    getObjectName [97, 47, 98] = [97, 47, 98] ∧
    putObjectName [97, 47, 98] = some [97, 47, 98] :=
  get_put_address_same_object [97, 47, 98] (by decide) (by decide) (by decide)
    (by decide)
